import Mathlib

/-!
Verification of the anomaly-detection core of `advanced_anomaly_detector.py`
(class `AdvancedAnomalyDetector`), shallowly embedded in Lean.

Modelling conventions:

* A process metrics dict is embedded as `RawProc`, with one `Option` field per
  dictionary key that the core reads or writes; `none` means the key is absent,
  so a dictionary access on it raises `KeyError`.  Functions that can raise a
  Python exception return `Option` (`none` = an exception propagates).
* Python floats/ints that enter arithmetic are embedded as `ℚ` (the concrete
  metric values are exact decimals, so `ℚ` represents them exactly).
* `StandardScaler` (scikit-learn) is embedded by its documented semantics:
  `fit` stores per-column mean and `scale_ = handle_zeros(sqrt(var))`, where
  `handle_zeros` replaces a zero scale by 1 (`_handle_zeros_in_scale`), and
  `transform` maps `x` to `(x - mean) / scale_` column-wise.  The numeric
  square root is abstracted as a parameter `sq : ℚ → ℚ` (only `sq 0 = 0` is
  ever assumed, which holds of the real square root).
* The fitted `IsolationForest` is abstracted as its row-wise prediction
  function `List ℚ → Int` (it returns `-1` for anomalous rows, `1` for normal
  ones); `IsolationForest.fit` is abstracted as a parameter
  `mfit : List (List ℚ) → Option (List ℚ → Int)`, where `none` models `fit`
  raising an exception.
* Wall-clock time (`datetime.now()`) is passed in as an opaque string `now`.
-/

namespace SystemMonitor

/-- One process metrics dictionary as the detector core sees it: the keys
written by `collect_process_metrics` plus the `anomaly_reason` key that
`detect_anomalies` may add.  A `none` field is an absent key. -/
structure RawProc where
  pid : Option Int
  name : Option String
  cpu_percent : Option ℚ
  memory_percent : Option ℚ
  num_threads : Option ℚ
  num_fds : Option ℚ
  num_connections : Option ℚ
  num_files : Option ℚ
  anomaly_reason : Option String
deriving DecidableEq, Repr

/-- Fitted `StandardScaler` state: per-column `mean_` and `scale_`. -/
structure Scaler where
  mean : List ℚ
  scale : List ℚ
deriving DecidableEq, Repr

/-- The state of one `AdvancedAnomalyDetector` instance (`__init__`,
lines 11-16): buffer capacity, the deque of batches, the scaler, the
(abstracted) fitted model, and the `is_trained` flag. -/
structure DetectorState where
  history_size : ℕ
  process_history : List (List RawProc)
  scaler : Scaler
  model : List ℚ → Int
  is_trained : Bool

/-- Observable outcome of one `detect_anomalies` call: the returned anomaly
list, the caller's process list after the call (the method mutates the dicts
in place), and the two logging signals the method can emit
(`logging.warning("Model not trained yet")` and
`logging.error("Error detecting anomalies: ...")`). -/
structure DetectResult where
  anomalies : List RawProc
  processes : List RawProc
  warned : Bool
  errored : Bool
deriving DecidableEq, Repr

/-- One entry of `report['anomalies']` (`generate_report`, lines 177-184). -/
structure ReportEntry where
  pid : Int
  name : String
  reason : String
  cpu_percent : ℚ
  memory_percent : ℚ
  connections : ℚ
deriving DecidableEq, Repr

/-- The report dict built by `generate_report` (lines 169-174). -/
structure Report where
  timestamp : String
  total_processes : ℕ
  anomaly_count : ℕ
  anomalies : List ReportEntry
deriving DecidableEq, Repr

/-- A Python loop that extracts `f` from every element, raising (returning
`none`) at the first element on which `f` raises. -/
def extractAll (f : α → Option β) : List α → Option (List β)
  | [] => some []
  | a :: as =>
    match f a with
    | none => none
    | some b =>
      match extractAll f as with
      | none => none
      | some bs => some (b :: bs)

/-- The feature vector built inside `prepare_training_data` (lines 81-87):
`[cpu_percent, memory_percent, num_threads, num_connections, num_files]`,
raising `KeyError` on a missing key. -/
def trainFV (p : RawProc) : Option (List ℚ) :=
  match p.cpu_percent, p.memory_percent, p.num_threads, p.num_connections, p.num_files with
  | some cpu, some mem, some thr, some conn, some files => some [cpu, mem, thr, conn, files]
  | _, _, _, _, _ => none

/-- The feature vector built inside `detect_anomalies` (lines 123-129),
textually the same extraction as the training-time one. -/
def scoreFV (p : RawProc) : Option (List ℚ) :=
  match p.cpu_percent, p.memory_percent, p.num_threads, p.num_connections, p.num_files with
  | some cpu, some mem, some thr, some conn, some files => some [cpu, mem, thr, conn, files]
  | _, _, _, _, _ => none

/-- `prepare_training_data` (lines 72-90): `None` when the history is empty
(inner `none`), otherwise the row-major flattening of the history, batch by
batch and within a batch in order; a missing key raises out of the method
(outer `none`). -/
def prepareTrainingData (h : List (List RawProc)) : Option (Option (List (List ℚ))) :=
  if h = [] then some none
  else
    match extractAll trainFV h.flatten with
    | none => none
    | some rows => some (some rows)

/-- Mean of a list of rationals (population mean, as `numpy` computes it). -/
def listMean (xs : List ℚ) : ℚ := xs.sum / (xs.length : ℚ)

/-- Population variance of a list of rationals (`ddof = 0`, as
`StandardScaler` computes `var_`). -/
def listVar (xs : List ℚ) : ℚ :=
  (xs.map (fun x => (x - listMean xs) ^ 2)).sum / (xs.length : ℚ)

/-- Column `j` of a row-major matrix. -/
def column (data : List (List ℚ)) (j : ℕ) : List ℚ :=
  data.map (fun r => r.getD j 0)

/-- Number of columns of a row-major matrix (all rows built by the feature
extraction have the same length). -/
def numCols (data : List (List ℚ)) : ℕ := (data.headD []).length

/-- scikit-learn `_handle_zeros_in_scale`: a zero scale is replaced by 1 so
that the later division never divides by zero. -/
def handleZeros (s : ℚ) : ℚ := if s = 0 then 1 else s

/-- `StandardScaler.fit` on a row-major matrix: per-column `mean_` and
`scale_ = handle_zeros(sq(var_))`, with `sq` the numeric square root. -/
def fitScaler (sq : ℚ → ℚ) (data : List (List ℚ)) : Scaler :=
  { mean := (List.range (numCols data)).map (fun j => listMean (column data j)),
    scale := (List.range (numCols data)).map
      (fun j => handleZeros (sq (listVar (column data j)))) }

/-- `StandardScaler.transform` on one row: `(x - mean_) / scale_`,
column-wise, using the frozen fitted statistics. -/
def transformRow (sc : Scaler) (r : List ℚ) : List ℚ :=
  List.zipWith (fun x ms => (x - ms.1) / ms.2) r (sc.mean.zip sc.scale)

/-- `train_model` (lines 92-111).  `prepare_training_data` runs outside the
`try`, so a `KeyError` there propagates (result `none`).  `None` data or fewer
rows than `history_size` logs "Insufficient data for training" and returns
`False` untouched.  Otherwise `scaler.fit_transform` refits the scaler
**in place** and only then `model.fit` runs inside the `try`: if the model fit
raises (`mfit _ = none`) the `except` returns `False`, but the scaler has
already been replaced.  (`fit_transform` on an empty matrix raises during
input validation, before mutating the scaler; that branch is only reachable
with `history_size = 0`.) -/
def trainModel (sq : ℚ → ℚ) (mfit : List (List ℚ) → Option (List ℚ → Int))
    (st : DetectorState) : Option (Bool × DetectorState) :=
  match prepareTrainingData st.process_history with
  | none => none
  | some none => some (false, st)
  | some (some rows) =>
    if rows.length < st.history_size then some (false, st)
    else if rows = [] then some (false, st)
    else
      let sc := fitScaler sq rows
      let scaled := rows.map (transformRow sc)
      match mfit scaled with
      | none => some (false, { st with scaler := sc })
      | some m =>
        some (true, { st with scaler := sc, model := m, is_trained := true })

/-- The rule list built by `get_anomaly_reason` (lines 152-163), in source
order. -/
def reasonsFor (cpu mem conn thr files : ℚ) : List String :=
  (if cpu > 80 then ["High CPU usage"] else []) ++
  (if mem > 80 then ["High memory usage"] else []) ++
  (if conn > 50 then ["Unusual network activity"] else []) ++
  (if thr > 100 then ["High thread count"] else []) ++
  (if files > 100 then ["Many open files"] else [])

/-- Line 165: `", ".join(reasons) if reasons else "Unusual behavior pattern"`. -/
def joinReasons (rs : List String) : String :=
  if rs = [] then "Unusual behavior pattern" else String.intercalate ", " rs

/-- `get_anomaly_reason` (lines 150-165), raising `KeyError` on a missing
key. -/
def getAnomalyReason (p : RawProc) : Option String :=
  match p.cpu_percent, p.memory_percent, p.num_connections, p.num_threads, p.num_files with
  | some cpu, some mem, some conn, some thr, some files =>
    some (joinReasons (reasonsFor cpu mem conn thr files))
  | _, _, _, _, _ => none

/-- The reason string `get_anomaly_reason` produces on a well-formed sample
(total form, reading absent fields as 0; it agrees with `getAnomalyReason`
whenever all five fields are present). -/
def reasonStr (p : RawProc) : String :=
  joinReasons (reasonsFor (p.cpu_percent.getD 0) (p.memory_percent.getD 0)
    (p.num_connections.getD 0) (p.num_threads.getD 0) (p.num_files.getD 0))

/-- The annotation loop of `detect_anomalies` (lines 137-141): walk the
predictions, and where the prediction is `-1` set the process dict's
`anomaly_reason` key and append that same dict to the anomaly list.  Returns
(caller's list after the loop, anomaly list); `none` models an exception
(only reachable here through a `KeyError` in `get_anomaly_reason`, which
cannot happen for dicts that already produced a feature vector). -/
def annotate : List RawProc → List Int → Option (List RawProc × List RawProc)
  | [], [] => some ([], [])
  | [], _ :: _ => none
  | p :: ps, [] => some (p :: ps, [])
  | p :: ps, pr :: prs =>
    if pr = -1 then
      match getAnomalyReason p with
      | none => none
      | some r =>
        match annotate ps prs with
        | none => none
        | some (ps', anoms) =>
          some ({ p with anomaly_reason := some r } :: ps',
                { p with anomaly_reason := some r } :: anoms)
    else
      match annotate ps prs with
      | none => none
      | some (ps', anoms) => some (p :: ps', anoms)

/-- The `try` block of `detect_anomalies` (lines 119-144): extract every
feature vector (a missing key raises before any mutation), transform with the
frozen scaler and predict row by row, then run the annotation loop.
`scaler.transform` raises on an empty input batch (scikit-learn rejects a
0-sample array), hence the `data = []` branch. -/
def detectBody (st : DetectorState) (procs : List RawProc) :
    Option (List RawProc × List RawProc) :=
  match extractAll scoreFV procs with
  | none => none
  | some data =>
    if data = [] then none
    else annotate procs ((data.map (transformRow st.scaler)).map st.model)

/-- `detect_anomalies` (lines 113-148).  Not trained: warn and return `[]`.
Otherwise run the body; any exception is caught by the `except`, which logs an
error and returns `[]` (the reachable exception points precede any mutation of
the caller's dicts, so `processes` is returned unchanged there). -/
def detectAnomalies (st : DetectorState) (procs : List RawProc) : DetectResult :=
  if st.is_trained then
    match detectBody st procs with
    | some (procs', anoms) => ⟨anoms, procs', false, false⟩
    | none => ⟨[], procs, false, true⟩
  else ⟨[], procs, true, false⟩

/-- The entry built for one anomaly dict by `generate_report` (lines
177-184); a missing key raises `KeyError`. -/
def reportEntry (p : RawProc) : Option ReportEntry :=
  match p.pid, p.name, p.anomaly_reason, p.cpu_percent, p.memory_percent, p.num_connections with
  | some pid, some name, some reason, some cpu, some mem, some conn =>
    some ⟨pid, name, reason, cpu, mem, conn⟩
  | _, _, _, _, _, _ => none

/-- `generate_report` (lines 167-186): a pure aggregation of the wall-clock
timestamp, `len(process_history[-1])` (0 on an empty history), the anomaly
count, and one entry per anomaly dict in order. -/
def generateReport (now : String) (hist : List (List RawProc))
    (anoms : List RawProc) : Option Report :=
  match extractAll reportEntry anoms with
  | none => none
  | some es => some ⟨now, (hist.getLast?.getD []).length, anoms.length, es⟩

/-- `collections.deque(maxlen = cap)` append: add on the right, then drop from
the left whatever exceeds the capacity. -/
def dequeAppend (cap : ℕ) (buf : List α) (x : α) : List α :=
  let b := buf ++ [x]
  b.drop (b.length - cap)

/-- `update_history` (lines 66-70), with the collected batch passed in (the
psutil enumeration is the external collaborator): append the batch to the
bounded deque. -/
def updateHistory (st : DetectorState) (batch : List RawProc) : DetectorState :=
  { st with process_history := dequeAppend st.history_size st.process_history batch }

/-- A freshly constructed detector (`__init__`, lines 11-16): empty history,
unfitted scaler and model placeholders, `is_trained = False`. -/
def initState (history_size : ℕ) : DetectorState :=
  { history_size := history_size
    process_history := []
    scaler := ⟨[], []⟩
    model := fun _ => 1
    is_trained := false }

lemma extractAll_eq_filterMap {f : α → Option β} :
    ∀ {l : List α}, (∀ a ∈ l, (f a).isSome) →
      extractAll f l = some (l.filterMap f)
  | [], _ => rfl
  | a :: as, h => by
    obtain ⟨b, hb⟩ := Option.isSome_iff_exists.mp (h a (by simp))
    have ih := extractAll_eq_filterMap (f := f) (l := as)
      (fun x hx => h x (by simp [hx]))
    simp [extractAll, hb, ih, List.filterMap_cons]

lemma length_filterMap_of_isSome {f : α → Option β} :
    ∀ {l : List α}, (∀ a ∈ l, (f a).isSome) →
      (l.filterMap f).length = l.length
  | [], _ => rfl
  | a :: as, h => by
    obtain ⟨b, hb⟩ := Option.isSome_iff_exists.mp (h a (by simp))
    have ih := length_filterMap_of_isSome (f := f) (l := as)
      (fun x hx => h x (by simp [hx]))
    simp [List.filterMap_cons, hb, ih]

lemma extractAll_eq_none {f : α → Option β} :
    ∀ {l : List α}, (∃ a ∈ l, f a = none) → extractAll f l = none
  | [], h => by simp at h
  | a :: as, h => by
    obtain ⟨x, hx, hfx⟩ := h
    rcases List.mem_cons.mp hx with rfl | hx'
    · simp [extractAll, hfx]
    · cases hfa : f a
      · simp [extractAll, hfa]
      · have ih := extractAll_eq_none (f := f) (l := as) ⟨x, hx', hfx⟩
        simp [extractAll, hfa, ih]

/-- *C1.*  If no successful fit has occurred (`is_trained` is false), a
detection request returns an empty anomaly list, leaves the caller's process
list untouched, and signals only the "Model not trained yet" warning; the
result is an ordinary return value, so no exception escapes the component. -/
theorem claim1_not_trained_detection_empty (st : DetectorState) (procs : List RawProc)
    (h : st.is_trained = false) :
    detectAnomalies st procs = ⟨[], procs, true, false⟩ := by
  simp [detectAnomalies, h]

theorem claim1_not_trained_detection_empty_witness :
    (initState 100).is_trained = false ∧
      detectAnomalies (initState 100) [] = ⟨[], [], true, false⟩ :=
  ⟨rfl, claim1_not_trained_detection_empty (initState 100) [] rfl⟩

/-- *C2.*  If the history flattens to fewer vectors than `history_size` (the
training threshold, which defaults to the buffer capacity), `train_model`
returns `False` without raising and leaves the whole state — in particular
`is_trained = false` — unchanged. -/
theorem claim2_insufficient_data_fit_fails (sq : ℚ → ℚ)
    (mfit : List (List ℚ) → Option (List ℚ → Int)) (st : DetectorState)
    (hwf : ∀ q ∈ st.process_history.flatten, (trainFV q).isSome)
    (hlt : st.process_history.flatten.length < st.history_size)
    (hnt : st.is_trained = false) :
    ∃ st', trainModel sq mfit st = some (false, st') ∧ st'.is_trained = false := by
  refine ⟨st, ?_, hnt⟩
  by_cases hh : st.process_history = []
  · simp [trainModel, prepareTrainingData, hh]
  · have hrows := extractAll_eq_filterMap (f := trainFV) hwf
    have hlen := length_filterMap_of_isSome (f := trainFV) hwf
    have hlt' : (st.process_history.flatten.filterMap trainFV).length < st.history_size := by
      rw [hlen]; exact hlt
    simp only [trainModel, prepareTrainingData, if_neg hh, hrows, hlt', if_true]

theorem claim2_insufficient_data_fit_fails_witness :
    ∃ st', trainModel (fun _ => 0) (fun _ => none)
        { initState 5 with process_history :=
            [[⟨some 1, some "a", some 0, some 0, some 0, some 0, some 0, some 0, none⟩],
             [⟨some 2, some "b", some 0, some 0, some 0, some 0, some 0, some 0, none⟩]] }
      = some (false, st') ∧ st'.is_trained = false :=
  claim2_insufficient_data_fit_fails (fun _ => 0) (fun _ => none) _
    (by decide) (by decide) rfl

lemma foldl_dequeAppend (cap : ℕ) (bs : List α) :
    bs.foldl (dequeAppend cap) [] = bs.drop (bs.length - cap) := by
  induction bs using List.reverseRecOn with
  | nil => simp
  | append_singleton l x ih =>
    rw [List.foldl_append, List.foldl_cons, List.foldl_nil, ih]
    simp only [dequeAppend]
    rw [← List.drop_append_of_le_length (by omega), List.drop_drop]
    congr 1
    simp only [List.length_append, List.length_drop, List.length_singleton]
    omega

lemma foldl_updateHistory (bs : List (List RawProc)) :
    ∀ st : DetectorState,
      (bs.foldl updateHistory st).process_history =
        bs.foldl (dequeAppend st.history_size) st.process_history ∧
      (bs.foldl updateHistory st).history_size = st.history_size := by
  induction bs with
  | nil => exact fun st => ⟨rfl, rfl⟩
  | cons b bs ih =>
    intro st
    have h := ih (updateHistory st b)
    simpa [updateHistory] using h

/-- *C3.*  Starting from a fresh detector, after any number of batch appends
the history buffer is exactly the suffix of the appended-batch sequence of
length `min capacity total`, i.e. the most recently appended batches in
append order with the oldest evicted first; in particular its length never
exceeds the capacity. -/
theorem claim3_history_bounded_fifo (hs : ℕ) (bs : List (List RawProc)) (n : ℕ) :
    ((bs.take n).foldl updateHistory (initState hs)).process_history =
      (bs.take n).drop ((bs.take n).length - hs) ∧
    ((bs.take n).foldl updateHistory (initState hs)).process_history.length =
      min hs (bs.take n).length := by
  obtain ⟨h1, -⟩ := foldl_updateHistory (bs.take n) (initState hs)
  have h2 := foldl_dequeAppend hs (bs.take n)
  refine ⟨h1.trans (by simpa [initState] using h2), ?_⟩
  rw [h1]
  simp only [initState]
  rw [h2, List.length_drop]
  omega

/-- A well-formed metric sample used as a concrete test input. -/
def sampleProc : RawProc :=
  ⟨some 1, some "init", some 10, some 20, some 3, some 2, some 4, some 5, none⟩

/-- A metric sample firing the CPU and network rules, used as a concrete test
input. -/
def hotProc : RawProc :=
  ⟨some 7, some "hot", some 90, some 10, some 5, some 0, some 60, some 5, none⟩

/-- *C4.*  The feature vector built at training time and the one built at
scoring time are the same fixed-order 5-tuple
`[cpu_percent, memory_percent, num_threads, num_connections, num_files]`,
and `prepare_training_data` flattens the history batch by batch, within each
batch in sample order. -/
theorem claim4_feature_order_and_flattening :
    (∀ (p : RawProc) (cpu mem thr conn files : ℚ),
      p.cpu_percent = some cpu → p.memory_percent = some mem →
      p.num_threads = some thr → p.num_connections = some conn →
      p.num_files = some files →
      trainFV p = some [cpu, mem, thr, conn, files] ∧
      scoreFV p = some [cpu, mem, thr, conn, files]) ∧
    (∀ h : List (List RawProc), h ≠ [] →
      (∀ q ∈ h.flatten, (trainFV q).isSome) →
      prepareTrainingData h =
        some (some ((h.map (fun b => b.filterMap trainFV)).flatten))) := by
  constructor
  · intro p cpu mem thr conn files hc hm ht hn hf
    constructor <;> simp [trainFV, scoreFV, hc, hm, ht, hn, hf]
  · intro h hne hwf
    have hrows := extractAll_eq_filterMap (f := trainFV) hwf
    simp only [prepareTrainingData, if_neg hne, hrows, List.filterMap_flatten]

theorem claim4_feature_order_and_flattening_witness :
    trainFV sampleProc = some [10, 20, 3, 4, 5] ∧
    scoreFV sampleProc = some [10, 20, 3, 4, 5] ∧
    prepareTrainingData [[sampleProc], [sampleProc]] =
      some (some [[10, 20, 3, 4, 5], [10, 20, 3, 4, 5]]) := by
  have h1 := claim4_feature_order_and_flattening.1 sampleProc 10 20 3 4 5
    rfl rfl rfl rfl rfl
  have h2 := claim4_feature_order_and_flattening.2 [[sampleProc], [sampleProc]]
    (by decide) (by decide)
  exact ⟨h1.1, h1.2, h2.trans (by decide)⟩

lemma listMean_const {c : ℚ} {xs : List ℚ} (hne : xs ≠ []) (hc : ∀ x ∈ xs, x = c) :
    listMean xs = c := by
  have hn : (xs.length : ℚ) ≠ 0 := by
    exact_mod_cast (List.length_pos.mpr hne).ne'
  have hsum : xs.sum = (xs.length : ℚ) * c := by
    conv_lhs => rw [List.eq_replicate_of_mem hc]
    rw [List.sum_replicate, nsmul_eq_mul]
  rw [listMean, hsum, mul_div_cancel_left₀ _ hn]

lemma listVar_const {c : ℚ} {xs : List ℚ} (hne : xs ≠ []) (hc : ∀ x ∈ xs, x = c) :
    listVar xs = 0 := by
  have hmean := listMean_const hne hc
  have hz : ∀ y ∈ xs.map (fun x => (x - listMean xs) ^ 2), y = 0 := by
    intro y hy
    obtain ⟨x, hx, rfl⟩ := List.mem_map.mp hy
    rw [hmean, hc x hx]; ring
  rw [listVar, List.sum_eq_zero hz, zero_div]

lemma column_const {data : List (List ℚ)} {j : ℕ} {c : ℚ}
    (hconst : ∀ row ∈ data, row.getD j 0 = c) : ∀ x ∈ column data j, x = c := by
  intro x hx
  obtain ⟨row, hrow, rfl⟩ := List.mem_map.mp hx
  exact hconst row hrow

lemma fitScaler_mean_getElem (sq : ℚ → ℚ) (data : List (List ℚ)) (j : ℕ)
    (h : j < (fitScaler sq data).mean.length) :
    (fitScaler sq data).mean[j] = listMean (column data j) := by
  simp [fitScaler, List.getElem_map, List.getElem_range]

lemma fitScaler_scale_getElem (sq : ℚ → ℚ) (data : List (List ℚ)) (j : ℕ)
    (h : j < (fitScaler sq data).scale.length) :
    (fitScaler sq data).scale[j] = handleZeros (sq (listVar (column data j))) := by
  simp [fitScaler, List.getElem_map, List.getElem_range]

/-- *C5, counterexample to the claim as stated.*  Fit the standardizer on a
feature that is constantly 5 across the training rows (so its standard
deviation, and hence the value the square root is applied to, is 0).
Transforming the input vector `[7]` yields 2 at that feature, not 0:
scikit-learn replaces the zero scale by 1, so the scaled value is
`x - mean`, which is 0 only when the input equals the training constant. -/
theorem claim5_zero_variance_counterexample :
    (∀ row ∈ [[(5 : ℚ)], [5]], row.getD 0 0 = 5) ∧
    (transformRow (fitScaler (fun _ => 0) [[(5 : ℚ)], [5]]) [7]).getD 0 0 = 2 ∧
    (2 : ℚ) ≠ 0 := by
  refine ⟨by decide, ?_, by norm_num⟩
  norm_num [transformRow, fitScaler, numCols, column, listMean, listVar, handleZeros]

/-- *C5, amended.*  If a feature is constant (value `c`) across all training
rows, its fitted scale is 1 (the zero scale is replaced, so no division by
zero and no undefined value ever arises), and `transform` maps the feature of
an input vector to `x - c`: it is 0 exactly when the input value equals the
training constant — in particular on every training row — but not for every
input vector. -/
theorem claim5_zero_variance_transform (sq : ℚ → ℚ) (data : List (List ℚ))
    (j : ℕ) (c : ℚ) (r : List ℚ) (hsq : sq 0 = 0) (hne : data ≠ [])
    (hconst : ∀ row ∈ data, row.getD j 0 = c) (hj : j < numCols data)
    (hr : j < r.length) :
    (∀ s : ℚ, handleZeros s ≠ 0) ∧
    (transformRow (fitScaler sq data) r).getD j 0 = r.getD j 0 - c ∧
    (r.getD j 0 = c → (transformRow (fitScaler sq data) r).getD j 0 = 0) := by
  have hz : ∀ s : ℚ, handleZeros s ≠ 0 := by
    intro s
    rw [handleZeros]
    split
    · exact one_ne_zero
    · assumption
  have hcne : column data j ≠ [] := by
    rw [column, ne_eq, List.map_eq_nil_iff]
    exact hne
  have hmean : listMean (column data j) = c := listMean_const hcne (column_const hconst)
  have hvar : listVar (column data j) = 0 := listVar_const hcne (column_const hconst)
  have hmlen : (fitScaler sq data).mean.length = numCols data := by simp [fitScaler]
  have hslen : (fitScaler sq data).scale.length = numCols data := by simp [fitScaler]
  have hlen : j < (transformRow (fitScaler sq data) r).length := by
    simp only [transformRow, List.length_zipWith, List.length_zip, hmlen, hslen]
    exact lt_min hr (lt_min hj hj)
  have hmain : (transformRow (fitScaler sq data) r).getD j 0 = r.getD j 0 - c := by
    rw [List.getD_eq_getElem _ _ hlen, List.getD_eq_getElem _ _ hr]
    simp only [transformRow, List.getElem_zipWith, List.getElem_zip]
    rw [fitScaler_mean_getElem sq data j (by omega),
      fitScaler_scale_getElem sq data j (by omega), hmean, hvar, hsq]
    rw [show handleZeros 0 = 1 from rfl, div_one]
  exact ⟨hz, hmain, fun hrc => by rw [hmain, hrc, sub_self]⟩

theorem claim5_zero_variance_transform_witness :
    handleZeros 3 ≠ 0 ∧
    (transformRow (fitScaler (fun _ => 0) [[(5 : ℚ)], [5]]) [5]).getD 0 0 = 0 := by
  have h := claim5_zero_variance_transform (fun _ => 0) [[(5 : ℚ)], [5]] 0 5 [5]
    rfl (by decide) (by decide) (by decide) (by decide)
  exact ⟨h.1 3, h.2.2 (by decide)⟩

/-- The rules of the reason classifier as the claim lists them: the
comma-joined list of exactly the rules that fire, in the fixed order
CPU, memory, connections, threads, files. -/
def firedRules (cpu mem conn thr files : ℚ) : List String :=
  ([(decide (cpu > 80), "High CPU usage"),
    (decide (mem > 80), "High memory usage"),
    (decide (conn > 50), "Unusual network activity"),
    (decide (thr > 100), "High thread count"),
    (decide (files > 100), "Many open files")]).filterMap
    (fun br => if br.1 then some br.2 else none)

lemma reasonsFor_eq_firedRules (cpu mem conn thr files : ℚ) :
    reasonsFor cpu mem conn thr files = firedRules cpu mem conn thr files := by
  by_cases h1 : cpu > 80 <;> by_cases h2 : mem > 80 <;> by_cases h3 : conn > 50 <;>
    by_cases h4 : thr > 100 <;> by_cases h5 : files > 100 <;>
    simp [reasonsFor, firedRules, h1, h2, h3, h4, h5]

/-- *C6.*  `get_anomaly_reason` is a pure function of one sample's raw
fields: it returns the comma-joined list of exactly the rules that fire among
`cpu_percent > 80`, `memory_percent > 80`, `num_connections > 50`,
`num_threads > 100`, `num_files > 100` (in that order), and the fallback
"Unusual behavior pattern" when no rule fires. -/
theorem claim6_reason_classifier (p : RawProc) (cpu mem conn thr files : ℚ)
    (hc : p.cpu_percent = some cpu) (hm : p.memory_percent = some mem)
    (hn : p.num_connections = some conn) (ht : p.num_threads = some thr)
    (hf : p.num_files = some files) :
    getAnomalyReason p =
      some (if firedRules cpu mem conn thr files = [] then "Unusual behavior pattern"
        else String.intercalate ", " (firedRules cpu mem conn thr files)) := by
  simp [getAnomalyReason, hc, hm, hn, ht, hf, joinReasons, reasonsFor_eq_firedRules]

theorem claim6_reason_classifier_witness :
    getAnomalyReason hotProc = some "High CPU usage, Unusual network activity" :=
  (claim6_reason_classifier hotProc 90 10 60 5 5 rfl rfl rfl rfl rfl).trans (by decide)

/-- `hotProc` after detection has annotated it with its anomaly reason. -/
def flaggedProc : RawProc :=
  ⟨some 7, some "hot", some 90, some 10, some 5, some 0, some 60, some 5,
    some "High CPU usage, Unusual network activity"⟩

/-- A sample whose `cpu_percent` key is missing: a malformed input vector. -/
def badProc : RawProc :=
  ⟨some 9, some "bad", none, some 0, some 0, some 0, some 0, some 0, none⟩

/-- A concrete fitted standardizer (means 0, scales 1). -/
def fittedScaler : Scaler := ⟨[0, 0, 0, 0, 0], [1, 1, 1, 1, 1]⟩

/-- A concrete detector in the trained state whose model classifies every row
as normal. -/
def trainedDetector : DetectorState := ⟨5, [], fittedScaler, fun _ => 1, true⟩

/-- A concrete detector in the trained state whose model classifies every row
as anomalous. -/
def flagAllDetector : DetectorState := ⟨5, [], fittedScaler, fun _ => -1, true⟩

/-- The standardizer of a previous successful fit, distinguishable from
anything `fit` would now produce. -/
def prevScaler : Scaler := ⟨[99], [99]⟩

/-- A concrete previously-trained detector whose buffered history suffices
for retraining (capacity 1, one batch of one sample). -/
def trainedState : DetectorState := ⟨1, [[sampleProc]], prevScaler, fun _ => 1, true⟩

/-- *C7.*  `generate_report` is a pure aggregation: given the timestamp, the
history and the anomaly records (each carrying its six report fields), it
returns the report whose `timestamp` is the given wall-clock string,
`total_processes` is the size of the most recent history batch (0 on an empty
history), `anomaly_count` is the length of the anomaly list, and whose
`anomalies` list has exactly one `{pid, name, reason, cpu_percent,
memory_percent, connections}` entry per record, in input order. -/
theorem claim7_report_builder (now : String) (hist : List (List RawProc))
    (anoms : List RawProc) (hwf : ∀ a ∈ anoms, (reportEntry a).isSome) :
    generateReport now hist anoms =
      some ⟨now, (hist.getLast?.getD []).length, anoms.length,
        anoms.filterMap reportEntry⟩ ∧
    (anoms.filterMap reportEntry).length = anoms.length := by
  have h := extractAll_eq_filterMap (f := reportEntry) hwf
  exact ⟨by simp only [generateReport, h], length_filterMap_of_isSome hwf⟩

theorem claim7_report_builder_witness :
    generateReport "2026-10-12 00:00:00" [[sampleProc]] [flaggedProc] =
      some ⟨"2026-10-12 00:00:00", 1, 1,
        [⟨7, "hot", "High CPU usage, Unusual network activity", 90, 10, 60⟩]⟩ :=
  ((claim7_report_builder "2026-10-12 00:00:00" [[sampleProc]] [flaggedProc]
    (by decide)).1).trans (by decide)

/-- *C8, counterexample to the claim as stated.*  A previously fitted
detector (`is_trained = true`, standardizer `⟨[99], [99]⟩`) retrains on a
buffered history of one batch; the model fit raises (modelled by
`mfit _ = none`), so `train_model` returns the failure indicator `False` —
yet the standardizer has already been refit in place by
`scaler.fit_transform` and is no longer the previously fitted one. -/
theorem claim8_atomic_replacement_counterexample :
    trainedState.is_trained = true ∧
    (trainModel (fun _ => 0) (fun _ => none) trainedState).map
        (fun r => (r.1, r.2.scaler)) =
      some (false, ⟨[10, 20, 3, 4, 5], [1, 1, 1, 1, 1]⟩) ∧
    (⟨[10, 20, 3, 4, 5], [1, 1, 1, 1, 1]⟩ : Scaler) ≠ trainedState.scaler := by
  refine ⟨rfl, ?_, by decide⟩
  norm_num [trainModel, prepareTrainingData, extractAll, trainFV, sampleProc,
    trainedState, prevScaler, fitScaler, numCols, column, listMean, listVar,
    handleZeros, List.range_succ]

/-- *C8, amended.*  A `fit` call that returns the failure indicator leaves
`is_trained`, the ensemble and the history unchanged; but the replacement is
not atomic: only the insufficient-data path also preserves the standardizer,
while a fit failing during ensemble training has already refit the
standardizer in place (see the counterexample). -/
theorem claim8_failed_fit_preserves_model_state (sq : ℚ → ℚ)
    (mfit : List (List ℚ) → Option (List ℚ → Int)) (st st' : DetectorState)
    (h : trainModel sq mfit st = some (false, st')) :
    st'.is_trained = st.is_trained ∧ st'.model = st.model ∧
    st'.process_history = st.process_history ∧
    st'.history_size = st.history_size := by
  unfold trainModel at h
  split at h
  · exact Option.noConfusion h
  · simp only [Option.some.injEq, Prod.mk.injEq, true_and] at h
    subst h
    exact ⟨rfl, rfl, rfl, rfl⟩
  · split at h
    · simp only [Option.some.injEq, Prod.mk.injEq, true_and] at h
      subst h
      exact ⟨rfl, rfl, rfl, rfl⟩
    · split at h
      · simp only [Option.some.injEq, Prod.mk.injEq, true_and] at h
        subst h
        exact ⟨rfl, rfl, rfl, rfl⟩
      · dsimp only at h
        split at h
        · simp only [Option.some.injEq, Prod.mk.injEq, true_and] at h
          subst h
          exact ⟨rfl, rfl, rfl, rfl⟩
        · simp at h

theorem claim8_failed_fit_preserves_model_state_witness :
    (initState 5).is_trained = (initState 5).is_trained ∧
    (initState 5).model = (initState 5).model ∧
    (initState 5).process_history = (initState 5).process_history ∧
    (initState 5).history_size = (initState 5).history_size :=
  claim8_failed_fit_preserves_model_state (fun _ => 0) (fun _ => none)
    (initState 5) (initState 5) rfl

/-- *C9, counterexample to the claim as stated.*  On a malformed input
sample (missing `cpu_percent`), a trained detector does not fail fast: the
`KeyError` is caught by the blanket `except`, an error is merely logged
(`errored = true`), and the returned anomaly list is `[]` — exactly the same
anomaly list a well-formed all-normal batch produces, so the caller receives
a normal-looking result instead of a descriptive failure. -/
theorem claim9_malformed_input_counterexample :
    trainedDetector.is_trained = true ∧
    detectAnomalies trainedDetector [badProc] = ⟨[], [badProc], false, true⟩ ∧
    detectAnomalies trainedDetector [sampleProc] = ⟨[], [sampleProc], false, false⟩ ∧
    (detectAnomalies trainedDetector [badProc]).anomalies =
      (detectAnomalies trainedDetector [sampleProc]).anomalies := by
  refine ⟨rfl, by decide, by decide, by decide⟩

/-- *C9, amended.*  On a batch containing a malformed sample (a missing
feature key), a trained detector's `detect_anomalies` does not raise and does
not substitute defaults: the exception is caught inside the component, an
error is logged, the caller's records are left unmodified, and the empty
anomaly list — indistinguishable in shape from a no-anomaly result — is
returned. -/
theorem claim9_malformed_input_swallowed (st : DetectorState)
    (procs : List RawProc) (ht : st.is_trained = true)
    (hbad : ∃ p ∈ procs, scoreFV p = none) :
    detectAnomalies st procs = ⟨[], procs, false, true⟩ := by
  have h := extractAll_eq_none (f := scoreFV) hbad
  simp [detectAnomalies, detectBody, ht, h]

theorem claim9_malformed_input_swallowed_witness :
    detectAnomalies trainedDetector [badProc] = ⟨[], [badProc], false, true⟩ :=
  claim9_malformed_input_swallowed trainedDetector [badProc] rfl
    ⟨badProc, by simp, rfl⟩

/-- How `detect_anomalies` rewrites one input record given its prediction:
a record predicted `-1` gets the `anomaly_reason` key set, a record predicted
normal is left unchanged. -/
def updFlag (p : RawProc) (pr : Int) : RawProc :=
  if pr = -1 then { p with anomaly_reason := some (reasonStr p) } else p

lemma getAnomalyReason_of_scoreFV {p : RawProc} (h : (scoreFV p).isSome) :
    getAnomalyReason p = some (reasonStr p) := by
  cases hc : p.cpu_percent <;> cases hm : p.memory_percent <;>
    cases hth : p.num_threads <;> cases hcn : p.num_connections <;>
    cases hf : p.num_files <;>
    simp_all [scoreFV, getAnomalyReason, reasonStr]

lemma annotate_spec :
    ∀ (procs : List RawProc) (preds : List Int), preds.length = procs.length →
      (∀ p ∈ procs, (scoreFV p).isSome) →
      annotate procs preds =
        some (List.zipWith updFlag procs preds,
          ((List.zipWith updFlag procs preds).zip preds).filterMap
            (fun x => if x.2 = -1 then some x.1 else none)) := by
  intro procs
  induction procs with
  | nil =>
    intro preds hlen _
    cases preds with
    | nil => simp [annotate]
    | cons pr prs => simp at hlen
  | cons p ps ih =>
    intro preds hlen hwf
    cases preds with
    | nil => simp at hlen
    | cons pr prs =>
      have hr := getAnomalyReason_of_scoreFV (hwf p (by simp))
      have ih' := ih prs (by simpa using hlen) (fun q hq => hwf q (by simp [hq]))
      by_cases hpr : pr = -1
      · simp [annotate, hpr, hr, ih', updFlag]
      · simp [annotate, hpr, ih', updFlag]

/-- *C10.*  Detection mutates its input: on a trained detector and a
well-formed non-empty batch, every record the model classifies as anomalous
has the `anomaly_reason` key added in the caller's list, records classified
as normal are left unchanged, and the returned anomaly list consists of
exactly those (mutated) records of the caller's list, in input order. -/
theorem claim10_detection_mutates_input (st : DetectorState)
    (procs : List RawProc) (ht : st.is_trained = true) (hne : procs ≠ [])
    (hwf : ∀ p ∈ procs, (scoreFV p).isSome) :
    detectAnomalies st procs =
      let preds := ((procs.filterMap scoreFV).map (transformRow st.scaler)).map st.model
      let procs' := List.zipWith updFlag procs preds
      ⟨(procs'.zip preds).filterMap (fun x => if x.2 = -1 then some x.1 else none),
        procs', false, false⟩ := by
  have hex := extractAll_eq_filterMap (f := scoreFV) hwf
  have hlenFM := length_filterMap_of_isSome (f := scoreFV) hwf
  have hdata : procs.filterMap scoreFV ≠ [] := by
    intro h0
    apply hne
    have hl := congrArg List.length h0
    rw [hlenFM] at hl
    exact List.length_eq_zero.mp hl
  have hplen :
      (((procs.filterMap scoreFV).map (transformRow st.scaler)).map st.model).length =
        procs.length := by
    simp [hlenFM]
  have hann := annotate_spec procs _ hplen hwf
  simp only [detectAnomalies, ht, detectBody, hex, if_neg hdata, hann, if_true]

theorem claim10_detection_mutates_input_witness :
    detectAnomalies flagAllDetector [hotProc] =
      ⟨[flaggedProc], [flaggedProc], false, false⟩ :=
  (claim10_detection_mutates_input flagAllDetector [hotProc] rfl (by decide)
    (by decide)).trans (by decide)

end SystemMonitor
